import Mathlib

/-!
Shallow embedding of the interaction core of the rn-infinite-canvas
repository: the shape store (`useShapes.native.ts`), the camera pinch
handler, the marquee-selection finisher and the shape-drag pan tracker
(`InfiniteCanvas` / `ShapeOverlay`).  JavaScript numbers are modelled as
rationals, nullable values as `Option`, and the JS falsiness of `null`
and `""` is made explicit where the source tests truthiness.
-/

namespace RNCanvas

/-- Discriminant of the `Shape` union (`kind` field). -/
inductive ShapeKind
  | rect
  | ellipse
  | text
deriving DecidableEq, Repr

/-- A shape record.  The TS type is a union `RectShape | EllipseShape |
TextShape`; it is flattened here with the optional fields of all variants
(`fontSize`/`color` are only ever set by the text constructors). -/
structure Shape where
  id : String
  kind : ShapeKind
  x : ℚ
  y : ℚ
  w : ℚ
  h : ℚ
  fill : Option String := none
  stroke : Option String := none
  strokeWidth : Option ℚ := none
  text : Option String := none
  fontSize : Option ℚ := none
  color : Option String := none
deriving DecidableEq, Repr

/-- Resize-handle corner. -/
inductive Corner
  | nw
  | ne
  | se
  | sw
deriving DecidableEq, Repr

/-- The state owned by the `useShapes` hook: the shape list, the single
selection, the drag session (`draggingId`), and the resize session
(`resizingRef.current = {id, corner}` plus the `isResizing` flag). -/
structure ShapesState where
  shapes : List Shape
  selectedId : Option String := none
  draggingId : Option String := none
  resizingId : Option String := none
  resizingCorner : Option Corner := none
  isResizing : Bool := false
deriving DecidableEq, Repr

def MIN_W : ℚ := 20
def MIN_H : ℚ := 20

/-- The three seed shapes of the `useState` initialiser. -/
def initialShapes : List Shape :=
  [ { id := "r1", kind := .rect, x := -120, y := -80, w := 160, h := 100,
      fill := some "#EEF2FF", stroke := some "#6376F1", strokeWidth := some 2,
      text := some "Rect" },
    { id := "e1", kind := .ellipse, x := 120, y := 40, w := 140, h := 90,
      fill := some "#FFF7ED", stroke := some "#F59E0B", strokeWidth := some 2,
      text := some "Ellipse" },
    { id := "t1", kind := .text, x := -40, y := 120, w := 220, h := 40,
      text := some "Hello RN", fontSize := some 18, color := some "#111827" } ]

/-- Initial hook state: seed shapes, no selection, no sessions. -/
def initialState : ShapesState := { shapes := initialShapes }

/-- `select(id | null)`. -/
def select (st : ShapesState) (i : Option String) : ShapesState :=
  { st with selectedId := i }

/-- `beginDrag(id)`. -/
def beginDrag (st : ShapesState) (i : String) : ShapesState :=
  { st with draggingId := some i }

/-- `dragBy(dx, dy)`: guard `if (!draggingId) return` (falsy for `null`
and for the empty string), then map over the shapes translating the
dragged one. -/
def dragBy (st : ShapesState) (dx dy : ℚ) : ShapesState :=
  match st.draggingId with
  | none => st
  | some did =>
    if did.isEmpty then st
    else
      { st with
        shapes := st.shapes.map fun s =>
          if s.id = did then { s with x := s.x + dx, y := s.y + dy } else s }

/-- `endDrag()`. -/
def endDrag (st : ShapesState) : ShapesState :=
  { st with draggingId := none }

/-- `Partial<Shape>` argument of the three constructors. -/
structure PartialShape where
  id : Option String := none
  x : Option ℚ := none
  y : Option ℚ := none
  w : Option ℚ := none
  h : Option ℚ := none
  fill : Option String := none
  stroke : Option String := none
  strokeWidth : Option ℚ := none
  text : Option String := none
  fontSize : Option ℚ := none
  color : Option String := none
deriving DecidableEq, Repr

/-- The rect built by `addRect`.  `genId` stands for the value of the
external random generator `` `rect_${Math.random().toString(36).slice(2, 9)}` ``;
it is used only when `partial.id` is absent. -/
def rectFromPartial (p : PartialShape) (genId : String) : Shape :=
  { id := p.id.getD genId
    kind := .rect
    x := p.x.getD 0
    y := p.y.getD 0
    w := p.w.getD 160
    h := p.h.getD 100
    fill := some (p.fill.getD "#ffffff")
    stroke := some (p.stroke.getD "#111111")
    strokeWidth := some (p.strokeWidth.getD 2)
    text := some (p.text.getD "Rect") }

/-- The ellipse built by `addEllipse`. -/
def ellipseFromPartial (p : PartialShape) (genId : String) : Shape :=
  { id := p.id.getD genId
    kind := .ellipse
    x := p.x.getD 0
    y := p.y.getD 0
    w := p.w.getD 140
    h := p.h.getD 90
    fill := some (p.fill.getD "#ffffff")
    stroke := some (p.stroke.getD "#111111")
    strokeWidth := some (p.strokeWidth.getD 2)
    text := some (p.text.getD "Ellipse") }

/-- The text shape built by `addText` (it copies no fill/stroke fields). -/
def textFromPartial (p : PartialShape) (genId : String) : Shape :=
  { id := p.id.getD genId
    kind := .text
    x := p.x.getD 0
    y := p.y.getD 0
    w := p.w.getD 200
    h := p.h.getD 40
    text := some (p.text.getD "New text")
    fontSize := some (p.fontSize.getD 18)
    color := some (p.color.getD "#111827") }

/-- `addRect(partial) -> id`: append and return the id. -/
def addRect (st : ShapesState) (p : PartialShape) (genId : String) :
    String × ShapesState :=
  let s := rectFromPartial p genId
  (s.id, { st with shapes := st.shapes ++ [s] })

/-- `addEllipse(partial) -> id`. -/
def addEllipse (st : ShapesState) (p : PartialShape) (genId : String) :
    String × ShapesState :=
  let s := ellipseFromPartial p genId
  (s.id, { st with shapes := st.shapes ++ [s] })

/-- `addText(partial) -> id`. -/
def addText (st : ShapesState) (p : PartialShape) (genId : String) :
    String × ShapesState :=
  let s := textFromPartial p genId
  (s.id, { st with shapes := st.shapes ++ [s] })

/-- `setShapeText(id, text)`: unconditional overwrite of the text field. -/
def setShapeText (st : ShapesState) (i : String) (t : String) : ShapesState :=
  { st with
    shapes := st.shapes.map fun s =>
      if s.id = i then { s with text := some t } else s }

/-- `beginResize(id, corner)`. -/
def beginResize (st : ShapesState) (i : String) (c : Corner) : ShapesState :=
  { st with resizingId := some i, resizingCorner := some c, isResizing := true }

/-- The per-shape body of `resizeBy`: the four corner branches, each
clamping the new dimension at the minimum and repositioning the moving
edge from the pre-mutation opposite edge. -/
def resizeShape (s : Shape) (c : Corner) (dx dy : ℚ) : Shape :=
  match c with
  | .se =>
    { s with w := max MIN_W (s.w + dx), h := max MIN_H (s.h + dy) }
  | .sw =>
    let right := s.x + s.w
    let newW := max MIN_W (s.w - dx)
    { s with x := right - newW, w := newW, h := max MIN_H (s.h + dy) }
  | .ne =>
    let bottom := s.y + s.h
    let newH := max MIN_H (s.h - dy)
    { s with y := bottom - newH, w := max MIN_W (s.w + dx), h := newH }
  | .nw =>
    let right := s.x + s.w
    let bottom := s.y + s.h
    let newW := max MIN_W (s.w - dx)
    let newH := max MIN_H (s.h - dy)
    { s with x := right - newW, y := bottom - newH, w := newW, h := newH }

/-- The function mapped over the shape list by an active `resizeBy`. -/
def resizeStep (rid : String) (c : Corner) (dx dy : ℚ) (s : Shape) : Shape :=
  if s.id = rid then resizeShape s c dx dy else s

/-- `resizeBy(dx, dy)`: guard `if (!sess.id || !sess.corner) return`
(falsy id is `null` or `""`), then map `resizeStep` over the shapes. -/
def resizeBy (st : ShapesState) (dx dy : ℚ) : ShapesState :=
  match st.resizingId, st.resizingCorner with
  | some rid, some c =>
    if rid.isEmpty then st
    else { st with shapes := st.shapes.map (resizeStep rid c dx dy) }
  | _, _ => st

/-- `endResize()`. -/
def endResize (st : ShapesState) : ShapesState :=
  { st with resizingId := none, resizingCorner := none, isResizing := false }

/-! Camera and pinch handler (`InfiniteCanvas`). -/

structure Camera where
  tx : ℚ
  ty : ℚ
  scale : ℚ
deriving DecidableEq, Repr

/-- `onCanvasPinchEvent`: `next = pinchStart.scale * e.scale;
clamped = Math.max(0.2, Math.min(5, next))`.  `pinchStartScale` is the
scale snapshotted by `onCanvasPinchState` when the gesture became
active; `rawScale` is the cumulative pinch factor of the event. -/
def onCanvasPinchEvent (pinchStartScale : ℚ) (cam : Camera) (rawScale : ℚ) :
    Camera :=
  { cam with scale := max 0.2 (min 5 (pinchStartScale * rawScale)) }

/-- Modelled from the spec: `clamp(v, lo, hi)` as the spec words it, to be
compared with the pinch handler's `max/min` composition. -/
def specClamp (v lo hi : ℚ) : ℚ := min hi (max lo v)

/-! Marquee finisher (`onBgMarqueePanState`, END/CANCELLED/FAILED branch). -/

structure Marquee where
  active : Bool
  x0 : ℚ
  y0 : ℚ
  x1 : ℚ
  y1 : ℚ
deriving DecidableEq, Repr

/-- The `fullyInside` test of the marquee finisher: the shape's
screen-space box (`x*scale+tx`, `y*scale+ty`, `w*scale`, `h*scale`) is
contained in the normalized marquee rectangle. -/
def shapeFullyInside (cam : Camera) (xMin yMin xMax yMax : ℚ) (sh : Shape) :
    Bool :=
  let sx := sh.x * cam.scale + cam.tx
  let sy := sh.y * cam.scale + cam.ty
  let sw := sh.w * cam.scale
  let shh := sh.h * cam.scale
  let sRight := sx + sw
  let sBottom := sy + shh
  decide (xMin ≤ sx) && decide (sRight ≤ xMax) &&
    decide (yMin ≤ sy) && decide (sBottom ≤ yMax)

/-- The END branch of `onBgMarqueePanState`: if the marquee is active,
normalize it, collect the ids of the fully-contained shapes as the new
`selectedIds`, and deactivate the marquee; otherwise leave both alone. -/
def finishMarquee (shapes : List Shape) (cam : Camera) (m : Marquee)
    (selectedIds : List String) : Marquee × List String :=
  if m.active then
    let xMin := min m.x0 m.x1
    let yMin := min m.y0 m.y1
    let xMax := max m.x0 m.x1
    let yMax := max m.y0 m.y1
    let inside :=
      (shapes.filter (shapeFullyInside cam xMin yMin xMax yMax)).map Shape.id
    ({ active := false, x0 := 0, y0 := 0, x1 := 0, y1 := 0 }, inside)
  else (m, selectedIds)

/-! Shape-drag pan tracker (`ShapeOverlay` `onPan` / `onPanState`). -/

def TAP_SLOP : ℚ := 8

/-- The refs of the shape pan handler: `last` (previous cumulative
translation) and `didDrag`. -/
structure PanTracker where
  lastX : ℚ
  lastY : ℚ
  didDrag : Bool
deriving DecidableEq, Repr

/-- State set by `onPanState` on BEGAN. -/
def panBegan : PanTracker := { lastX := 0, lastY := 0, didDrag := false }

/-- One `onPan` event with cumulative translations: computes the
incremental delta from `last`, always updates `last`, suppresses the
event while `didDrag` is unset and both |translations| are within
`TAP_SLOP`, and otherwise emits the incremental delta divided by the
camera scale (the `dragByWorld` call). -/
def onPanEvent (camScale : ℚ) (tr : PanTracker)
    (translationX translationY : ℚ) : PanTracker × Option (ℚ × ℚ) :=
  let dxInc := translationX - tr.lastX
  let dyInc := translationY - tr.lastY
  let tr1 : PanTracker := { tr with lastX := translationX, lastY := translationY }
  if tr.didDrag then
    (tr1, some (dxInc / camScale, dyInc / camScale))
  else if |translationX| > TAP_SLOP ∨ |translationY| > TAP_SLOP then
    ({ tr1 with didDrag := true }, some (dxInc / camScale, dyInc / camScale))
  else
    (tr1, none)

/-- Run a sequence of `onPan` events, collecting the emitted `dragBy`
deltas in order. -/
def runPanEvents (camScale : ℚ) (tr : PanTracker) :
    List (ℚ × ℚ) → PanTracker × List (ℚ × ℚ)
  | [] => (tr, [])
  | (tx, ty) :: rest =>
    let step := onPanEvent camScale tr tx ty
    let next := runPanEvents camScale step.1 rest
    (next.1,
      match step.2 with
      | none => next.2
      | some d => d :: next.2)

/-- Events whose cumulative translations stay within the slop on both
axes. -/
def withinSlop (events : List (ℚ × ℚ)) : Bool :=
  events.all fun e => decide (|e.1| ≤ TAP_SLOP) && decide (|e.2| ≤ TAP_SLOP)

/-! Store-call sequences (for the session-exclusion claims). -/

/-- One call of the session-relevant store API. -/
inductive StoreCall
  | beginDrag (i : String)
  | dragBy (dx dy : ℚ)
  | endDrag
  | beginResize (i : String) (c : Corner)
  | resizeBy (dx dy : ℚ)
  | endResize
deriving DecidableEq, Repr

/-- Interpret one call on the store. -/
def execCall (st : ShapesState) : StoreCall → ShapesState
  | .beginDrag i => beginDrag st i
  | .dragBy dx dy => dragBy st dx dy
  | .endDrag => endDrag st
  | .beginResize i c => beginResize st i c
  | .resizeBy dx dy => resizeBy st dx dy
  | .endResize => endResize st

/-- Interpret a call sequence left to right. -/
def runCalls (st : ShapesState) : List StoreCall → ShapesState
  | [] => st
  | c :: rest => runCalls (execCall st c) rest

/-- A call sequence in which a drag never starts while a resize session
is open, and a resize never starts while a drag session is open (the
discipline the gesture-arbitration layer is meant to provide). -/
def guardedCalls (st : ShapesState) : List StoreCall → Bool
  | [] => true
  | c :: rest =>
    (match c with
     | .beginDrag _ => st.resizingId.isNone
     | .beginResize _ _ => st.draggingId.isNone
     | _ => true) && guardedCalls (execCall st c) rest

/-- No drag session and resize session are simultaneously open. -/
def sessionsExclusive (st : ShapesState) : Bool :=
  st.draggingId.isNone || st.resizingId.isNone

/-! Derived notions used by the claim statements. -/

/-- The corner diagonally opposite a resize corner. -/
def oppositeCorner : Corner → Corner
  | .nw => .se
  | .ne => .sw
  | .se => .nw
  | .sw => .ne

/-- World position of one corner of a shape's bounding box. -/
def cornerPoint (s : Shape) : Corner → ℚ × ℚ
  | .nw => (s.x, s.y)
  | .ne => (s.x + s.w, s.y)
  | .sw => (s.x, s.y + s.h)
  | .se => (s.x + s.w, s.y + s.h)

/-- A single shape satisfies the minimum-size bound. -/
def shapeMinOK (s : Shape) : Bool :=
  decide (MIN_W ≤ s.w) && decide (MIN_H ≤ s.h)

/-- Every shape of the store satisfies the minimum-size bound. -/
def storeMinOK (st : ShapesState) : Bool :=
  st.shapes.all shapeMinOK

/-- The width/height overrides of a partial, when present, respect the
minimum sizes. -/
def partialMinOK (p : PartialShape) : Bool :=
  (p.w.all fun v => decide (MIN_W ≤ v)) && (p.h.all fun v => decide (MIN_H ≤ v))

/-! Concrete fixtures used by witnesses and counterexamples. -/

/-- Shape A of the marquee scenario: world rect (0,0,50,50). -/
def shapeA : Shape := { id := "A", kind := .rect, x := 0, y := 0, w := 50, h := 50 }

/-- Shape B of the marquee scenario: world rect (100,100,50,50). -/
def shapeB : Shape := { id := "B", kind := .rect, x := 100, y := 100, w := 50, h := 50 }

/-- Identity camera (tx=0, ty=0, scale=1). -/
def camId : Camera := { tx := 0, ty := 0, scale := 1 }

/-- An active marquee with the given corners. -/
def mq (a b c d : ℚ) : Marquee := { active := true, x0 := a, y0 := b, x1 := c, y1 := d }

/-- Initial state with an open se-corner resize session on shape r1. -/
def sessionSe : ShapesState := beginResize initialState "r1" Corner.se

/-- A partial whose explicit width/height are below the minima. -/
def lowPartial : PartialShape := { w := some 5, h := some 5 }

/-- A partial whose explicit id collides with the seeded shape r1. -/
def dupIdPartial : PartialShape := { id := some "r1" }

/-! Helper lemmas. -/

/-- `resizeShape` preserves the anchor corner opposite the grabbed
corner, clamps included: the moving edge is recomputed from the
pre-mutation opposite edge. -/
theorem resizeShape_anchor (s : Shape) (c : Corner) (dx dy : ℚ) :
    cornerPoint (resizeShape s c dx dy) (oppositeCorner c)
      = cornerPoint s (oppositeCorner c) := by
  cases c <;>
    simp only [resizeShape, oppositeCorner, cornerPoint, Prod.mk.injEq] <;>
    constructor <;> ring_nf

/-- C1: for every state with an open resize session (non-falsy id, some
corner), each `resizeBy` call rewrites the shape list by `resizeStep` on
the session target only, and `resizeShape` leaves the world position of
the corner opposite the session corner unchanged — for se the nw corner
(x, y), for sw the ne corner (x+w, y), for ne the sw corner (x, y+h),
for nw the se corner (x+w, y+h) — including when the MIN_W/MIN_H clamps
engage. -/
theorem resize_anchor (st : ShapesState) (dx dy : ℚ) (rid : String)
    (c : Corner) (s : Shape)
    (hid : st.resizingId = some rid) (hc : st.resizingCorner = some c)
    (hne : rid.isEmpty = false) :
    (resizeBy st dx dy).shapes = st.shapes.map (resizeStep rid c dx dy)
    ∧ cornerPoint (resizeShape s c dx dy) (oppositeCorner c)
        = cornerPoint s (oppositeCorner c) := by
  constructor
  · simp [resizeBy, hid, hc, hne]
  · exact resizeShape_anchor s c dx dy

/-- Witness for C1: a concrete se-resize session on r1, shrinking past
the clamp. -/
theorem resize_anchor_w :
    (resizeBy sessionSe 5 (-300)).shapes
        = sessionSe.shapes.map (resizeStep "r1" Corner.se 5 (-300))
    ∧ cornerPoint (resizeShape shapeA Corner.se 5 (-300))
          (oppositeCorner Corner.se)
        = cornerPoint shapeA (oppositeCorner Corner.se) :=
  resize_anchor sessionSe 5 (-300) "r1" Corner.se shapeA rfl rfl rfl

/-- C4: the pinch handler sets the new scale to the clamp of
startScale × rawScaleFactor into [0.2, 5]; a cumulative factor of 100
from scale 1 gives 5, and a factor of 0.0001 gives 0.2. -/
theorem zoom_clamp (startScale rawScale : ℚ) (cam : Camera) :
    (onCanvasPinchEvent startScale cam rawScale).scale
        = specClamp (startScale * rawScale) 0.2 5
    ∧ (onCanvasPinchEvent 1 camId 100).scale = 5
    ∧ (onCanvasPinchEvent 1 camId 0.0001).scale = 0.2 := by
  refine ⟨?_, ?_, ?_⟩
  · show max 0.2 (min 5 (startScale * rawScale))
        = specClamp (startScale * rawScale) 0.2 5
    rw [specClamp, max_min_distrib_left]
    norm_num
  · norm_num [onCanvasPinchEvent, camId]
  · norm_num [onCanvasPinchEvent, camId]

/-- C7: `dragBy` with no open drag session and `resizeBy` with no open
resize session leave the store unchanged. -/
theorem noop_without_session (st st2 : ShapesState) (dx dy dx2 dy2 : ℚ)
    (h1 : st.draggingId = none) (h2 : st2.resizingId = none) :
    dragBy st dx dy = st ∧ resizeBy st2 dx2 dy2 = st2 := by
  constructor
  · unfold dragBy
    rw [h1]
  · cases hc : st2.resizingCorner <;> simp [resizeBy, h2, hc]

/-- Witness for C7: the initial state has neither session open, so both
calls are no-ops there. -/
theorem noop_without_session_w :
    dragBy initialState 1 2 = initialState
    ∧ resizeBy initialState 3 4 = initialState :=
  noop_without_session initialState initialState 1 2 3 4 rfl rfl

/-- C3: with an active marquee, finishing replaces the selection by
exactly the ids of the shapes whose screen-space box is fully contained
in the normalized marquee rectangle and deactivates the marquee; on the
A/B fixture under the identity camera, (0,0)-(60,60) selects exactly A,
(0,0)-(200,200) selects A and B, and (10,10)-(40,40) selects nothing. -/
theorem marquee_contain (shapes : List Shape) (cam : Camera) (m : Marquee)
    (sel : List String) (i : String) (hact : m.active = true) :
    ((finishMarquee shapes cam m sel).1.active = false
      ∧ (i ∈ (finishMarquee shapes cam m sel).2
          ↔ ∃ sh, sh ∈ shapes
              ∧ shapeFullyInside cam (min m.x0 m.x1) (min m.y0 m.y1)
                  (max m.x0 m.x1) (max m.y0 m.y1) sh = true
              ∧ sh.id = i))
    ∧ (finishMarquee [shapeA, shapeB] camId (mq 0 0 60 60) []).2 = ["A"]
    ∧ (finishMarquee [shapeA, shapeB] camId (mq 0 0 200 200) []).2 = ["A", "B"]
    ∧ (finishMarquee [shapeA, shapeB] camId (mq 10 10 40 40) []).2 = [] := by
  refine ⟨⟨?_, ?_⟩, ?_, ?_, ?_⟩
  · simp [finishMarquee, hact]
  · simp only [finishMarquee, hact, if_true, List.mem_map, List.mem_filter]
    tauto
  · norm_num [finishMarquee, shapeFullyInside, shapeA, shapeB, camId, mq,
      List.filter]
  · norm_num [finishMarquee, shapeFullyInside, shapeA, shapeB, camId, mq,
      List.filter]
  · norm_num [finishMarquee, shapeFullyInside, shapeA, shapeB, camId, mq,
      List.filter]

/-- Witness for C3: the theorem applied to the concrete A/B fixture with
the (0,0)-(60,60) marquee and id A. -/
theorem marquee_contain_w :
    ((finishMarquee [shapeA, shapeB] camId (mq 0 0 60 60) []).1.active = false
      ∧ ("A" ∈ (finishMarquee [shapeA, shapeB] camId (mq 0 0 60 60) []).2
          ↔ ∃ sh, sh ∈ [shapeA, shapeB]
              ∧ shapeFullyInside camId
                  (min (mq 0 0 60 60).x0 (mq 0 0 60 60).x1)
                  (min (mq 0 0 60 60).y0 (mq 0 0 60 60).y1)
                  (max (mq 0 0 60 60).x0 (mq 0 0 60 60).x1)
                  (max (mq 0 0 60 60).y0 (mq 0 0 60 60).y1) sh = true
              ∧ sh.id = "A"))
    ∧ (finishMarquee [shapeA, shapeB] camId (mq 0 0 60 60) []).2 = ["A"]
    ∧ (finishMarquee [shapeA, shapeB] camId (mq 0 0 200 200) []).2 = ["A", "B"]
    ∧ (finishMarquee [shapeA, shapeB] camId (mq 10 10 40 40) []).2 = [] :=
  marquee_contain [shapeA, shapeB] camId (mq 0 0 60 60) [] "A" rfl

/-- Pan events all within the slop with `didDrag` unset emit no
`dragBy` call. -/
theorem runPan_slop_none (camScale : ℚ) (tr : PanTracker)
    (events : List (ℚ × ℚ)) (hdd : tr.didDrag = false)
    (hin : withinSlop events = true) :
    (runPanEvents camScale tr events).2 = [] := by
  induction events generalizing tr with
  | nil => rfl
  | cons e rest ih =>
    obtain ⟨tx, ty⟩ := e
    simp only [withinSlop, List.all_cons, Bool.and_eq_true,
      decide_eq_true_eq] at hin
    have hnot : ¬(|tx| > TAP_SLOP ∨ |ty| > TAP_SLOP) := by
      push_neg
      exact ⟨hin.1.1, hin.1.2⟩
    simp only [runPanEvents, onPanEvent, hdd, if_false, Bool.false_eq_true,
      if_neg hnot]
    exact ih ⟨tx, ty, false⟩ rfl hin.2

/-- C5: a shape-pan sequence whose cumulative translations stay within
TAP_SLOP (8px) on both axes never emits a `dragBy`; and any event
arriving with `didDrag` already set, or whose translation exceeds the
slop on either axis, emits the incremental delta since the previous
event divided by the camera scale (not the cumulative translation) and
leaves `didDrag` set, so every later event also emits. -/
theorem tap_slop_drag (camScale : ℚ) (events : List (ℚ × ℚ))
    (tr : PanTracker) (tX tY : ℚ)
    (hin : withinSlop events = true)
    (hfire : tr.didDrag = true ∨ |tX| > TAP_SLOP ∨ |tY| > TAP_SLOP) :
    (runPanEvents camScale panBegan events).2 = []
    ∧ onPanEvent camScale tr tX tY
        = ({ lastX := tX, lastY := tY, didDrag := true },
           some ((tX - tr.lastX) / camScale, (tY - tr.lastY) / camScale)) := by
  constructor
  · exact runPan_slop_none camScale panBegan events rfl hin
  · obtain ⟨lx, ly, dd⟩ := tr
    cases dd with
    | true => simp [onPanEvent]
    | false =>
      have hcond : |tX| > TAP_SLOP ∨ |tY| > TAP_SLOP := by
        rcases hfire with h | h
        · exact absurd h (by simp)
        · exact h
      simp [onPanEvent, if_pos hcond]

/-- Witness for C5: two in-slop events emit nothing, and a 10px event
from the initial tracker emits the incremental delta. -/
theorem tap_slop_drag_w :
    (runPanEvents 1 panBegan [(3, 3), (-8, 5)]).2 = []
    ∧ onPanEvent 1 panBegan 10 0
        = ({ lastX := 10, lastY := 0, didDrag := true },
           some ((10 - panBegan.lastX) / 1, (0 - panBegan.lastY) / 1)) :=
  tap_slop_drag 1 [(3, 3), (-8, 5)] panBegan 10 0 (by decide) (by decide)

/-- Mapping a pointwise `shapeMinOK`-preserving function over the shape
list preserves `all shapeMinOK`. -/
theorem all_minOK_map {l : List Shape} {f : Shape → Shape}
    (h : ∀ s, shapeMinOK s = true → shapeMinOK (f s) = true)
    (hl : l.all shapeMinOK = true) : (l.map f).all shapeMinOK = true := by
  simp only [List.all_eq_true, List.mem_map] at *
  rintro x ⟨a, ha, rfl⟩
  exact h a (hl a ha)

/-- The resize branches always clamp the new dimensions at the minima. -/
theorem shapeMinOK_resizeShape (s : Shape) (c : Corner) (dx dy : ℚ) :
    shapeMinOK (resizeShape s c dx dy) = true := by
  cases c <;>
    simp only [shapeMinOK, resizeShape, Bool.and_eq_true, decide_eq_true_eq] <;>
    exact ⟨le_max_left _ _, le_max_left _ _⟩

/-- A value bounded below when present, defaulted by a bounded value, is
bounded. -/
theorem le_getD {m d : ℚ} {o : Option ℚ}
    (ho : o.all (fun v => decide (m ≤ v)) = true) (hd : m ≤ d) :
    m ≤ o.getD d := by
  cases o with
  | none => exact hd
  | some v => simpa using ho

/-- C2 counterexample: `addRect` does not clamp explicit dimensions, so
adding a rect with w=h=5 leaves the store with a shape below the minima. -/
theorem min_size_cex :
    storeMinOK (addRect initialState lowPartial "rect_new1").2 = false := by
  decide

/-- C2 (amended): the minimum-size invariant holds initially and is
preserved by every store operation — `resizeBy` re-clamps to the minima
— provided each add call's partial supplies width/height only at or
above MIN_W/MIN_H (the defaults are); an explicit smaller dimension in
an add call violates it, as the counterexample shows. -/
theorem min_size_clamped (st : ShapesState) (dx dy dx2 dy2 : ℚ)
    (i i2 t gid : String) (c : Corner) (p : PartialShape)
    (h : storeMinOK st = true) (hp : partialMinOK p = true) :
    storeMinOK initialState = true
    ∧ storeMinOK (dragBy st dx dy) = true
    ∧ storeMinOK (resizeBy st dx2 dy2) = true
    ∧ storeMinOK (addRect st p gid).2 = true
    ∧ storeMinOK (addEllipse st p gid).2 = true
    ∧ storeMinOK (addText st p gid).2 = true
    ∧ storeMinOK (setShapeText st i t) = true
    ∧ storeMinOK (select st (some i2)) = true
    ∧ storeMinOK (beginDrag st i) = true
    ∧ storeMinOK (endDrag st) = true
    ∧ storeMinOK (beginResize st i c) = true
    ∧ storeMinOK (endResize st) = true := by
  simp only [partialMinOK, Bool.and_eq_true] at hp
  refine ⟨by decide, ?_, ?_, ?_, ?_, ?_, ?_, h, h, h, h, h⟩
  · cases hd : st.draggingId with
    | none => simpa [dragBy, hd] using h
    | some did =>
      by_cases he : did.isEmpty <;> simp only [storeMinOK, dragBy, hd, he,
        if_true, if_false]
      · exact h
      · exact all_minOK_map (fun s hs => by
          by_cases hsid : s.id = did <;> simpa [hsid, shapeMinOK] using hs) h
  · cases hr : st.resizingId with
    | none => cases hc : st.resizingCorner <;> simpa [resizeBy, hr, hc] using h
    | some rid =>
      cases hc : st.resizingCorner with
      | none => simpa [resizeBy, hr, hc] using h
      | some c2 =>
        by_cases he : rid.isEmpty <;> simp only [storeMinOK, resizeBy, hr, hc,
          he, if_true, if_false]
        · exact h
        · exact all_minOK_map (fun s hs => by
            by_cases hsid : s.id = rid
            · simpa [resizeStep, hsid] using shapeMinOK_resizeShape s c2 dx2 dy2
            · simpa [resizeStep, hsid] using hs) h
  · simp only [storeMinOK, addRect, List.all_append, Bool.and_eq_true]
    refine ⟨h, ?_⟩
    simp only [List.all_cons, List.all_nil, Bool.and_true, shapeMinOK,
      rectFromPartial, Bool.and_eq_true, decide_eq_true_eq]
    exact ⟨le_getD hp.1 (by norm_num [MIN_W]),
      le_getD hp.2 (by norm_num [MIN_H])⟩
  · simp only [storeMinOK, addEllipse, List.all_append, Bool.and_eq_true]
    refine ⟨h, ?_⟩
    simp only [List.all_cons, List.all_nil, Bool.and_true, shapeMinOK,
      ellipseFromPartial, Bool.and_eq_true, decide_eq_true_eq]
    exact ⟨le_getD hp.1 (by norm_num [MIN_W]),
      le_getD hp.2 (by norm_num [MIN_H])⟩
  · simp only [storeMinOK, addText, List.all_append, Bool.and_eq_true]
    refine ⟨h, ?_⟩
    simp only [List.all_cons, List.all_nil, Bool.and_true, shapeMinOK,
      textFromPartial, Bool.and_eq_true, decide_eq_true_eq]
    exact ⟨le_getD hp.1 (by norm_num [MIN_W]),
      le_getD hp.2 (by norm_num [MIN_H])⟩
  · exact all_minOK_map (fun s hs => by
      by_cases hsid : s.id = i <;> simpa [hsid, shapeMinOK] using hs) h

/-- Witness for C2: the preserved invariant instantiated on the initial
state with concrete deltas, ids and an empty partial. -/
theorem min_size_clamped_w :
    storeMinOK initialState = true
    ∧ storeMinOK (dragBy initialState 1 2) = true
    ∧ storeMinOK (resizeBy initialState 3 4) = true
    ∧ storeMinOK (addRect initialState {} "rect_g1").2 = true
    ∧ storeMinOK (addEllipse initialState {} "rect_g1").2 = true
    ∧ storeMinOK (addText initialState {} "rect_g1").2 = true
    ∧ storeMinOK (setShapeText initialState "r1" "hi") = true
    ∧ storeMinOK (select initialState (some "e1")) = true
    ∧ storeMinOK (beginDrag initialState "r1") = true
    ∧ storeMinOK (endDrag initialState) = true
    ∧ storeMinOK (beginResize initialState "r1" Corner.nw) = true
    ∧ storeMinOK (endResize initialState) = true :=
  min_size_clamped initialState 1 2 3 4 "r1" "e1" "hi" "rect_g1" Corner.nw {}
    (by decide) (by decide)

/-- `dragBy` touches neither session field. -/
theorem dragBy_sessions (st : ShapesState) (dx dy : ℚ) :
    (dragBy st dx dy).draggingId = st.draggingId
    ∧ (dragBy st dx dy).resizingId = st.resizingId := by
  cases hd : st.draggingId with
  | none => simp [dragBy, hd]
  | some did => by_cases he : did.isEmpty <;> simp [dragBy, hd, he]

/-- `resizeBy` touches neither session field. -/
theorem resizeBy_sessions (st : ShapesState) (dx dy : ℚ) :
    (resizeBy st dx dy).draggingId = st.draggingId
    ∧ (resizeBy st dx dy).resizingId = st.resizingId := by
  cases hr : st.resizingId with
  | none => cases hc : st.resizingCorner <;> simp [resizeBy, hr, hc]
  | some rid =>
    cases hc : st.resizingCorner with
    | none => simp [resizeBy, hr, hc]
    | some c => by_cases he : rid.isEmpty <;> simp [resizeBy, hr, hc, he]

/-- C6 counterexample: the store itself does not enforce session
exclusion — `beginDrag` then `beginResize` on the fresh store leaves
both a non-null dragging id and a non-null resize-session id. -/
theorem single_session_cex :
    (runCalls initialState
        [StoreCall.beginDrag "r1", StoreCall.beginResize "r1" Corner.se]
      ).draggingId = some "r1"
    ∧ (runCalls initialState
        [StoreCall.beginDrag "r1", StoreCall.beginResize "r1" Corner.se]
      ).resizingId = some "r1" :=
  ⟨rfl, rfl⟩

/-- C6 (amended): for every sequence of store calls in which `beginDrag`
is only invoked while no resize session is open and `beginResize` only
while no drag session is open (the discipline the gesture-arbitration
layer provides), a state with no simultaneous sessions never reaches
one: the store never has a non-null dragging id and a non-null
resize-session id at the same time.  The store API alone does not
enforce this, as the counterexample shows. -/
theorem single_session_guarded (calls : List StoreCall) (st : ShapesState)
    (hst : sessionsExclusive st = true) (hg : guardedCalls st calls = true) :
    sessionsExclusive (runCalls st calls) = true := by
  induction calls generalizing st with
  | nil => exact hst
  | cons c rest ih =>
    simp only [guardedCalls, Bool.and_eq_true] at hg
    refine ih (execCall st c) ?_ hg.2
    cases c with
    | beginDrag i =>
      simp only [execCall, sessionsExclusive, beginDrag]
      simpa using hg.1
    | beginResize i c2 =>
      simp only [execCall, sessionsExclusive, beginResize]
      simpa using hg.1
    | dragBy dx dy =>
      simpa only [execCall, sessionsExclusive, (dragBy_sessions st dx dy).1,
        (dragBy_sessions st dx dy).2] using hst
    | resizeBy dx dy =>
      simpa only [execCall, sessionsExclusive, (resizeBy_sessions st dx dy).1,
        (resizeBy_sessions st dx dy).2] using hst
    | endDrag =>
      simp [execCall, sessionsExclusive, endDrag]
    | endResize =>
      simp [execCall, sessionsExclusive, endResize]

/-- Witness for C6: a guarded concrete sequence (drag, end, then resize)
keeps the sessions exclusive. -/
theorem single_session_guarded_w :
    sessionsExclusive (runCalls initialState
      [StoreCall.beginDrag "r1", StoreCall.dragBy 1 1, StoreCall.endDrag,
        StoreCall.beginResize "r1" Corner.se, StoreCall.resizeBy 2 2,
        StoreCall.endResize]) = true :=
  single_session_guarded
    [StoreCall.beginDrag "r1", StoreCall.dragBy 1 1, StoreCall.endDrag,
      StoreCall.beginResize "r1" Corner.se, StoreCall.resizeBy 2 2,
      StoreCall.endResize] initialState rfl (by decide)

/-- C9 counterexample: the constructors perform no collision check —
`addRect` with `partial.id = "r1"` returns "r1", which is already the id
of a seeded shape in the store. -/
theorem unique_id_cex :
    (addRect initialState dupIdPartial "rect_fresh1").1 = "r1"
    ∧ "r1" ∈ initialState.shapes.map Shape.id := by
  constructor
  · rfl
  · decide

/-- C9 (amended): each constructor appends its shape at the end of the
list and returns that shape's id, which is `partial.id` when supplied
and the generated id otherwise; the returned id is distinct from every
existing id whenever the chosen id does not already occur in the store
(no collision check is performed, so a supplied duplicate collides). -/
theorem unique_id_append (st : ShapesState) (p : PartialShape)
    (g1 g2 g3 : String)
    (h1 : p.id.getD g1 ∉ st.shapes.map Shape.id)
    (h2 : p.id.getD g2 ∉ st.shapes.map Shape.id)
    (h3 : p.id.getD g3 ∉ st.shapes.map Shape.id) :
    ((addRect st p g1).1 = p.id.getD g1
      ∧ (addRect st p g1).1 ∉ st.shapes.map Shape.id
      ∧ (addRect st p g1).2.shapes = st.shapes ++ [rectFromPartial p g1])
    ∧ ((addEllipse st p g2).1 = p.id.getD g2
      ∧ (addEllipse st p g2).1 ∉ st.shapes.map Shape.id
      ∧ (addEllipse st p g2).2.shapes = st.shapes ++ [ellipseFromPartial p g2])
    ∧ ((addText st p g3).1 = p.id.getD g3
      ∧ (addText st p g3).1 ∉ st.shapes.map Shape.id
      ∧ (addText st p g3).2.shapes = st.shapes ++ [textFromPartial p g3]) :=
  ⟨⟨rfl, h1, rfl⟩, ⟨rfl, h2, rfl⟩, ⟨rfl, h3, rfl⟩⟩

/-- Witness for C9: fresh generated ids on the initial store. -/
theorem unique_id_append_w :
    ((addRect initialState {} "rect_a1").1 = Option.getD none "rect_a1"
      ∧ (addRect initialState {} "rect_a1").1
          ∉ initialState.shapes.map Shape.id
      ∧ (addRect initialState {} "rect_a1").2.shapes
          = initialState.shapes ++ [rectFromPartial {} "rect_a1"])
    ∧ ((addEllipse initialState {} "ellipse_a1").1
          = Option.getD none "ellipse_a1"
      ∧ (addEllipse initialState {} "ellipse_a1").1
          ∉ initialState.shapes.map Shape.id
      ∧ (addEllipse initialState {} "ellipse_a1").2.shapes
          = initialState.shapes ++ [ellipseFromPartial {} "ellipse_a1"])
    ∧ ((addText initialState {} "text_a1").1 = Option.getD none "text_a1"
      ∧ (addText initialState {} "text_a1").1
          ∉ initialState.shapes.map Shape.id
      ∧ (addText initialState {} "text_a1").2.shapes
          = initialState.shapes ++ [textFromPartial {} "text_a1"]) :=
  unique_id_append initialState {} "rect_a1" "ellipse_a1" "text_a1"
    (by decide) (by decide) (by decide)

/-- Pointwise frame facts preserved by the drag/resize mutations of one
shape: identity, kind, style and text are untouched, and shapes other
than the session target are untouched entirely. -/
def frameOK (tgt : Option String) (before after : List Shape) : Prop :=
  after.map Shape.id = before.map Shape.id
  ∧ List.Forall₂ (fun s s2 =>
      s2.kind = s.kind ∧ s2.fill = s.fill ∧ s2.stroke = s.stroke
      ∧ s2.strokeWidth = s.strokeWidth ∧ s2.text = s.text
      ∧ (tgt ≠ some s.id → s2 = s)) before after

/-- Pointwise frame facts for `setShapeText`: ids are untouched and
shapes other than the given id are untouched entirely. -/
def frameOKText (tid : String) (before after : List Shape) : Prop :=
  after.map Shape.id = before.map Shape.id
  ∧ List.Forall₂ (fun s s2 => s2.id = s.id ∧ (s.id ≠ tid → s2 = s))
      before after

/-- A pointwise relation holds between a list and its image. -/
theorem forall2_map_self {R : Shape → Shape → Prop} (f : Shape → Shape)
    (l : List Shape) (h : ∀ s, R s (f s)) : List.Forall₂ R l (l.map f) := by
  induction l with
  | nil => exact List.Forall₂.nil
  | cons a t ih => exact List.Forall₂.cons (h a) ih

/-- A reflexive-on-members relation holds between a list and itself. -/
theorem forall2_self {R : Shape → Shape → Prop} (l : List Shape)
    (h : ∀ s, R s s) : List.Forall₂ R l l := by
  induction l with
  | nil => exact List.Forall₂.nil
  | cons a t ih => exact List.Forall₂.cons (h a) ih

/-- Mapping an id-preserving function preserves the id projection. -/
theorem map_id_of_pointwise (f : Shape → Shape) (l : List Shape)
    (h : ∀ s, (f s).id = s.id) :
    (l.map f).map Shape.id = l.map Shape.id := by
  induction l with
  | nil => rfl
  | cons a t ih => simp [h a, ih]

/-- The frame relation holds reflexively. -/
theorem frameOK_refl (tgt : Option String) (l : List Shape) : frameOK tgt l l :=
  ⟨rfl, forall2_self l fun _ => ⟨rfl, rfl, rfl, rfl, rfl, fun _ => rfl⟩⟩

/-- The frame relation holds for a map whose function preserves the
frame fields pointwise and fixes non-target shapes. -/
theorem frameOK_map (tgt : String) (l : List Shape) (f : Shape → Shape)
    (h : ∀ s, (f s).id = s.id ∧ (f s).kind = s.kind ∧ (f s).fill = s.fill
      ∧ (f s).stroke = s.stroke ∧ (f s).strokeWidth = s.strokeWidth
      ∧ (f s).text = s.text ∧ (s.id ≠ tgt → f s = s)) :
    frameOK (some tgt) l (l.map f) := by
  refine ⟨map_id_of_pointwise f l (fun s => (h s).1),
    forall2_map_self f l fun s => ?_⟩
  obtain ⟨h1, h2, h3, h4, h5, h6, h7⟩ := h s
  exact ⟨h2, h3, h4, h5, h6,
    fun hne => h7 fun hEq => hne (congrArg some hEq.symm)⟩

/-- The text frame relation holds reflexively. -/
theorem frameOKText_refl (tid : String) (l : List Shape) :
    frameOKText tid l l :=
  ⟨rfl, forall2_self l fun _ => ⟨rfl, fun _ => rfl⟩⟩

/-- The text frame relation holds for a map whose function preserves ids
and fixes shapes other than the target. -/
theorem frameOKText_map (tid : String) (l : List Shape) (f : Shape → Shape)
    (h : ∀ s, (f s).id = s.id ∧ (s.id ≠ tid → f s = s)) :
    frameOKText tid l (l.map f) :=
  ⟨map_id_of_pointwise f l (fun s => (h s).1),
    forall2_map_self f l fun s => h s⟩

/-- C10: `dragBy`, `resizeBy` and `setShapeText` preserve the number,
ids and order of the shapes and leave every shape other than their
target unchanged in all fields; `dragBy` and `resizeBy` also leave the
target's kind, fill, stroke, strokeWidth and text unchanged. -/
theorem frame_mutations (st : ShapesState) (dx dy dx2 dy2 : ℚ)
    (tid txt : String) :
    frameOK st.draggingId st.shapes (dragBy st dx dy).shapes
    ∧ frameOK st.resizingId st.shapes (resizeBy st dx2 dy2).shapes
    ∧ frameOKText tid st.shapes (setShapeText st tid txt).shapes := by
  refine ⟨?_, ?_, ?_⟩
  · cases hd : st.draggingId with
    | none =>
      simp only [dragBy, hd]
      exact frameOK_refl none st.shapes
    | some did =>
      by_cases he : did.isEmpty
      · simp only [dragBy, hd, he, if_true]
        exact frameOK_refl (some did) st.shapes
      · simp only [dragBy, hd, he, if_false, Bool.false_eq_true]
        exact frameOK_map did st.shapes _ fun s => by
          by_cases hsid : s.id = did <;> simp [hsid]
  · cases hr : st.resizingId with
    | none =>
      cases hc : st.resizingCorner <;> simp only [resizeBy, hr, hc] <;>
        exact frameOK_refl none st.shapes
    | some rid =>
      cases hc : st.resizingCorner with
      | none =>
        simp only [resizeBy, hr, hc]
        exact frameOK_refl (some rid) st.shapes
      | some c =>
        by_cases he : rid.isEmpty
        · simp only [resizeBy, hr, hc, he, if_true]
          exact frameOK_refl (some rid) st.shapes
        · simp only [resizeBy, hr, hc, he, if_false, Bool.false_eq_true]
          exact frameOK_map rid st.shapes _ fun s => by
            by_cases hsid : s.id = rid <;>
              cases c <;> simp [resizeStep, resizeShape, hsid]
  · refine frameOKText_map tid st.shapes _ fun s => ?_
    by_cases hsid : s.id = tid <;> simp [hsid]

/-- C8: `endDrag` and `endResize` are idempotent, and each leaves its
session closed (safe to call with nothing active). -/
theorem idempotent_end (st : ShapesState) :
    endDrag (endDrag st) = endDrag st
    ∧ endResize (endResize st) = endResize st
    ∧ (endDrag st).draggingId = none
    ∧ (endResize st).resizingId = none
    ∧ (endResize st).resizingCorner = none
    ∧ (endResize st).isResizing = false :=
  ⟨rfl, rfl, rfl, rfl, rfl, rfl⟩

end RNCanvas
